import Mathlib

/-!
# Verification of the Healthcare-Management-SystemV2 credential and account logic

Shallow embedding of the credential/account operations of the repository:
* `SecurityManager.hash_password` / `SecurityManager.verify_password`
  (owner_app.py, PBKDF2-HMAC-SHA256 with a 32-byte salt, stored as
  base64(salt ++ key)),
* `SecurityManager.generate_access_code` / `AzureServices._generate_access_code`
  (8 characters from uppercase letters + digits),
* `AdminApplication.generate_access_code` (local SQLite variant, retry loop
  against the live pharmacy/laboratory code sets),
* `AzureServices.add_lab_account_to_doctor`, `AzureServices.regenerate_access_code`,
  `AzureServices.update_subscription`, `AzureServices.update_doctor_account`,
* the subscription-status derivation of `OwnerApp._populate_doctors_tree`,
* the local-variant doctor password storage (unsalted SHA-256 hex digest).

Bytes are modelled as `Nat` with explicit `< 256` bounds where needed; the
external cryptographic primitives (`hashlib.pbkdf2_hmac`, `hashlib.sha256`)
are parameters of the definitions that call them, and the `secrets.choice`
random source is a parameter `r : Nat → Nat` (call number `i` of
`secrets.choice(alphabet)` returns `alphabet[(r i) % alphabet.length]`,
which ranges over exactly the elements of the alphabet).
-/

/-! ## Base64 (model of Python `base64.b64encode` / `base64.b64decode`)

Encoding follows RFC 4648: groups of 3 bytes become 4 alphabet characters,
a trailing group of 1 or 2 bytes is padded with `==` or `=`.

`base64.b64decode` is called with its default `validate=False`
(owner_app.py line 66), so decoding has the semantics of CPython's
non-strict `binascii.a2b_base64`: characters outside the 64-character
alphabet are *discarded* (not errors); a `=` ends decoding successfully
once the current quad holds enough data characters (two `=` after 2 data
characters, one after 3), discarding any leftover bits and any remaining
input; `binascii.Error` — modelled as `none` — is raised exactly when the
input runs out mid-quad: a data-character count ≡ 1 (mod 4), or a quad of
2-3 data characters never terminated by enough padding. -/

def b64Chars : List Char :=
  ['A','B','C','D','E','F','G','H','I','J','K','L','M',
   'N','O','P','Q','R','S','T','U','V','W','X','Y','Z',
   'a','b','c','d','e','f','g','h','i','j','k','l','m',
   'n','o','p','q','r','s','t','u','v','w','x','y','z',
   '0','1','2','3','4','5','6','7','8','9','+','/']

def sestetToChar (v : Nat) : Char :=
  b64Chars.getD v '!'

def charToSestet (c : Char) : Option Nat :=
  b64Chars.findIdx? (fun x => x == c)

def b64EncodeBytes : List Nat → List Char
  | [] => []
  | [a] =>
      [sestetToChar (a / 4), sestetToChar (a % 4 * 16), '=', '=']
  | [a, b] =>
      [sestetToChar (a / 4), sestetToChar (a % 4 * 16 + b / 16),
       sestetToChar (b % 16 * 4), '=']
  | a :: b :: c :: rest =>
      sestetToChar (a / 4) :: sestetToChar (a % 4 * 16 + b / 16) ::
      sestetToChar (b % 16 * 4 + c / 64) :: sestetToChar (c % 64) ::
      b64EncodeBytes rest

/-- The quad-filling loop of CPython's non-strict `binascii.a2b_base64`:
`quad_pos` counts the data characters of the current group of 4, `leftchar`
holds their pending low bits, `pads` counts the `=` seen since the last data
character.  Non-alphabet characters are skipped; `=` terminates decoding
once `quad_pos + pads` reaches 4 with `quad_pos ≥ 2`; input exhausted at
`quad_pos ≠ 0` is the `binascii.Error` path. -/
def a2bBase64Aux (quad_pos leftchar pads : Nat) : List Char → Option (List Nat)
  | [] => if quad_pos = 0 then some [] else none
  | c :: rest =>
      if c = '=' then
        if 2 ≤ quad_pos ∧ 4 ≤ quad_pos + (pads + 1) then some []
        else a2bBase64Aux quad_pos leftchar (pads + 1) rest
      else
        match charToSestet c with
        | none => a2bBase64Aux quad_pos leftchar pads rest
        | some v =>
            match quad_pos with
            | 0 => a2bBase64Aux 1 v 0 rest
            | 1 => (a2bBase64Aux 2 (v % 16) 0 rest).map
                     fun bs => (leftchar * 4 + v / 16) :: bs
            | 2 => (a2bBase64Aux 3 (v % 4) 0 rest).map
                     fun bs => (leftchar * 16 + v / 4) :: bs
            | _ => (a2bBase64Aux 0 0 0 rest).map
                     fun bs => (leftchar * 64 + v) :: bs

/-- `base64.b64decode` with `validate=False` (what `verify_password` calls). -/
def b64DecodeBytes (s : List Char) : Option (List Nat) :=
  a2bBase64Aux 0 0 0 s

lemma charToSestet_sestetToChar : ∀ v : Nat, v < 64 → charToSestet (sestetToChar v) = some v := by
  decide

lemma sestetToChar_ne_pad : ∀ v : Nat, v < 64 → sestetToChar v ≠ '=' := by
  decide

lemma a2b_data0 (lc p v : Nat) (hv : v < 64) (rest : List Char) :
    a2bBase64Aux 0 lc p (sestetToChar v :: rest) = a2bBase64Aux 1 v 0 rest := by
  rw [a2bBase64Aux, if_neg (sestetToChar_ne_pad v hv), charToSestet_sestetToChar v hv]

lemma a2b_data1 (lc p v : Nat) (hv : v < 64) (rest : List Char) :
    a2bBase64Aux 1 lc p (sestetToChar v :: rest) =
      (a2bBase64Aux 2 (v % 16) 0 rest).map fun bs => (lc * 4 + v / 16) :: bs := by
  rw [a2bBase64Aux, if_neg (sestetToChar_ne_pad v hv), charToSestet_sestetToChar v hv]

lemma a2b_data2 (lc p v : Nat) (hv : v < 64) (rest : List Char) :
    a2bBase64Aux 2 lc p (sestetToChar v :: rest) =
      (a2bBase64Aux 3 (v % 4) 0 rest).map fun bs => (lc * 16 + v / 4) :: bs := by
  rw [a2bBase64Aux, if_neg (sestetToChar_ne_pad v hv), charToSestet_sestetToChar v hv]

lemma a2b_data3 (lc p v : Nat) (hv : v < 64) (rest : List Char) :
    a2bBase64Aux 3 lc p (sestetToChar v :: rest) =
      (a2bBase64Aux 0 0 0 rest).map fun bs => (lc * 64 + v) :: bs := by
  rw [a2bBase64Aux, if_neg (sestetToChar_ne_pad v hv), charToSestet_sestetToChar v hv]

lemma a2b_two_pads (lc : Nat) : a2bBase64Aux 2 lc 0 ['=', '='] = some [] := rfl

lemma a2b_one_pad (lc : Nat) : a2bBase64Aux 3 lc 0 ['='] = some [] := rfl

theorem b64_decode_encode : ∀ l : List Nat, (∀ x ∈ l, x < 256) →
    b64DecodeBytes (b64EncodeBytes l) = some l
  | [], _ => rfl
  | [a], h => by
      have ha : a < 256 := h a (by simp)
      simp only [b64EncodeBytes, b64DecodeBytes]
      rw [a2b_data0 0 0 (a / 4) (by omega),
          a2b_data1 (a / 4) 0 (a % 4 * 16) (by omega),
          a2b_two_pads]
      simp only [Option.map_some', Option.some.injEq, List.cons.injEq, and_true]
      omega
  | [a, b], h => by
      have ha : a < 256 := h a (by simp)
      have hb : b < 256 := h b (by simp)
      simp only [b64EncodeBytes, b64DecodeBytes]
      rw [a2b_data0 0 0 (a / 4) (by omega),
          a2b_data1 (a / 4) 0 (a % 4 * 16 + b / 16) (by omega),
          a2b_data2 ((a % 4 * 16 + b / 16) % 16) 0 (b % 16 * 4) (by omega),
          a2b_one_pad]
      simp only [Option.map_some', Option.some.injEq, List.cons.injEq, and_true]
      constructor <;> omega
  | a :: b :: c :: rest, h => by
      have ha : a < 256 := h a (by simp)
      have hb : b < 256 := h b (by simp)
      have hc : c < 256 := h c (by simp)
      have hrest : ∀ x ∈ rest, x < 256 := fun x hx => h x (by simp [hx])
      have ih := b64_decode_encode rest hrest
      simp only [b64DecodeBytes] at ih
      simp only [b64EncodeBytes, b64DecodeBytes]
      rw [a2b_data0 0 0 (a / 4) (by omega),
          a2b_data1 (a / 4) 0 (a % 4 * 16 + b / 16) (by omega),
          a2b_data2 ((a % 4 * 16 + b / 16) % 16) 0 (b % 16 * 4 + c / 64) (by omega),
          a2b_data3 ((b % 16 * 4 + c / 64) % 4) 0 (c % 64) (by omega),
          ih]
      simp only [Option.map_some', Option.some.injEq, List.cons.injEq, and_true]
      refine ⟨by omega, by omega, by omega⟩

/-! ## CredentialVault: `SecurityManager.hash_password` / `verify_password`
(owner_app.py lines 50-78)

The PBKDF2-HMAC-SHA256 key derivation (`hashlib.pbkdf2_hmac`) is an external
primitive; it enters the model as a parameter
`pbkdf2 : List Nat → List Nat → List Nat` (password, salt ↦ derived key).
`hash_password` receives the 32 random salt bytes produced by
`os.urandom(32)` as the explicit argument `salt`. -/

/-- `SecurityManager.hash_password`: returns `base64(salt ++ pbkdf2(password, salt))`. -/
def hash_password (pbkdf2 : List Nat → List Nat → List Nat)
    (salt password : List Nat) : List Char :=
  b64EncodeBytes (salt ++ pbkdf2 password salt)

/-- `SecurityManager.verify_password`: decodes the stored hash, splits it as
`salt = decoded[:32]`, `stored_key = decoded[32:]`, re-derives and compares.
The `except` path (raised by `base64.b64decode` on malformed input) returns
`false`, modelled by the `none` branch. -/
def verify_password (pbkdf2 : List Nat → List Nat → List Nat)
    (stored_password : List Char) (provided_password : List Nat) : Bool :=
  match b64DecodeBytes stored_password with
  | none => false
  | some decoded =>
      let salt := decoded.take 32
      let stored_key := decoded.drop 32
      let new_key := pbkdf2 provided_password salt
      stored_key == new_key

/-- C1: for every password `P`, `verify_password (hash_password P) P = true`,
and for every candidate `Pc ≠ P`, `verify_password (hash_password P) Pc = false`.
The salt has the 32 bytes produced by `os.urandom(32)`, and the key-derivation
primitive is assumed collision-free in the password for a fixed salt (the
idealisation of PBKDF2-HMAC-SHA256 under which the spec sentence is stated). -/
theorem C1_verify_hash_roundtrip
    (pbkdf2 : List Nat → List Nat → List Nat) (salt : List Nat)
    (hsalt : salt.length = 32) (hsb : ∀ x ∈ salt, x < 256)
    (hinj : ∀ p q : List Nat, pbkdf2 p salt = pbkdf2 q salt → p = q)
    (P Pc : List Nat) (hkb : ∀ x ∈ pbkdf2 P salt, x < 256) (hne : Pc ≠ P) :
    verify_password pbkdf2 (hash_password pbkdf2 salt P) P = true ∧
    verify_password pbkdf2 (hash_password pbkdf2 salt P) Pc = false := by
  have hbytes : ∀ x ∈ salt ++ pbkdf2 P salt, x < 256 := by
    intro x hx
    rcases List.mem_append.1 hx with h | h
    · exact hsb x h
    · exact hkb x h
  have hdec : b64DecodeBytes (b64EncodeBytes (salt ++ pbkdf2 P salt)) =
      some (salt ++ pbkdf2 P salt) := b64_decode_encode _ hbytes
  have htake : (salt ++ pbkdf2 P salt).take 32 = salt := List.take_left' hsalt
  have hdrop : (salt ++ pbkdf2 P salt).drop 32 = pbkdf2 P salt := List.drop_left' hsalt
  constructor
  · simp only [verify_password, hash_password, hdec, htake, hdrop]
    exact beq_self_eq_true _
  · simp only [verify_password, hash_password, hdec, htake, hdrop]
    rw [beq_eq_false_iff_ne]
    intro he
    exact hne (hinj Pc P (hinj P Pc he ▸ rfl))

/-- Witness for C1 at a concrete instantiation: the key-derivation parameter
`fun p _ => p` is injective in the password, the salt is 32 zero bytes,
`P = [7]`, `Pc = [3]`. -/
theorem C1_verify_hash_roundtrip_witness :
    verify_password (fun p _ => p)
      (hash_password (fun p _ => p) (List.replicate 32 0) [7]) [7] = true ∧
    verify_password (fun p _ => p)
      (hash_password (fun p _ => p) (List.replicate 32 0) [7]) [3] = false :=
  C1_verify_hash_roundtrip (fun p _ => p) (List.replicate 32 0)
    (by simp) (by decide) (fun p q h => h) [7] [3] (by decide) (by decide)

/-- C9: on every stored hash that does not decode to a well-formed
`salt ++ key` blob of 32 + 32 bytes, `verify_password` returns `false`
(a recoverable result, not an exception).  The only fact used about the
key-derivation primitive is that `hashlib.pbkdf2_hmac('sha256', ...)`
returns 32 bytes. -/
theorem C9_verify_malformed_returns_false
    (pbkdf2 : List Nat → List Nat → List Nat)
    (hlen : ∀ p s : List Nat, (pbkdf2 p s).length = 32)
    (stored : List Char) (candidate : List Nat)
    (hmal : b64DecodeBytes stored = none ∨
      ∀ d : List Nat, b64DecodeBytes stored = some d → d.length ≠ 64) :
    verify_password pbkdf2 stored candidate = false := by
  cases hd : b64DecodeBytes stored with
  | none => simp [verify_password, hd]
  | some d =>
      have hlen64 : d.length ≠ 64 := by
        rcases hmal with h | h
        · rw [h] at hd; exact absurd hd (by simp)
        · exact h d hd
      simp only [verify_password, hd]
      rw [beq_eq_false_iff_ne]
      intro he
      have hlens : (d.drop 32).length = (pbkdf2 candidate (d.take 32)).length := by rw [he]
      rw [List.length_drop, hlen] at hlens
      omega

/-- Witness for C9: the stored string `"A"` has a single data character (1
mod 4), on which `base64.b64decode` raises `binascii.Error` (decode `none`),
and with a 32-byte-output key-derivation parameter `verify_password`
returns `false`. -/
theorem C9_verify_malformed_returns_false_witness :
    verify_password (fun _ _ => List.replicate 32 0) ['A'] [] = false :=
  C9_verify_malformed_returns_false (fun _ _ => List.replicate 32 0)
    (fun _ _ => by simp) ['A'] [] (Or.inl (by decide))

/-! ## Access-code generation (`SecurityManager.generate_access_code`,
`AzureServices._generate_access_code`, owner_app.py 86-90 / admin_app.py 443-446)

`secrets.choice(alphabet)` always returns an element of `alphabet`; call
number `i` of the generator is modelled as `alphabet[(r i) % 36]` for a
random source `r : Nat → Nat`.  `base` is the stream position of the first
draw, so that successive generator calls consume fresh randomness. -/

def accessCodeAlphabet : List Char :=
  ['A','B','C','D','E','F','G','H','I','J','K','L','M',
   'N','O','P','Q','R','S','T','U','V','W','X','Y','Z',
   '0','1','2','3','4','5','6','7','8','9']

/-- One call of `secrets.choice` on an alphabet, fed by the random source `r`. -/
def secretsChoice (r : Nat → Nat) (i : Nat) (alphabet : List Char) : Char :=
  alphabet.getD (r i % alphabet.length) 'A'

/-- `generate_access_code(length)`: `length` independent draws from
uppercase letters + digits. -/
def generate_access_code (r : Nat → Nat) (base length : Nat) : List Char :=
  (List.range length).map fun i => secretsChoice r (base + i) accessCodeAlphabet

lemma secretsChoice_mem (r : Nat → Nat) (i : Nat) (alphabet : List Char)
    (h : alphabet ≠ []) : secretsChoice r i alphabet ∈ alphabet := by
  have hlen : 0 < alphabet.length := List.length_pos.2 h
  have hlt : r i % alphabet.length < alphabet.length := Nat.mod_lt _ hlen
  simp only [secretsChoice, List.getD_eq_getElem?_getD, List.getElem?_eq_getElem hlt,
    Option.getD_some]
  exact List.getElem_mem hlt

/-- C8: every call of the access-code generator returns exactly 8 characters,
each drawn from the 36-character alphabet `A-Z0-9`. -/
theorem C8_access_code_shape (r : Nat → Nat) (base : Nat) :
    (generate_access_code r base 8).length = 8 ∧
    ∀ c ∈ generate_access_code r base 8, c ∈ accessCodeAlphabet := by
  constructor
  · simp [generate_access_code]
  · intro c hc
    simp only [generate_access_code, List.mem_map] at hc
    obtain ⟨i, _, rfl⟩ := hc
    exact secretsChoice_mem r (base + i) accessCodeAlphabet (by decide)

/-! ## Subscription status derivation (`OwnerApp._populate_doctors_tree`,
owner_app.py 1611-1618): `days_left = (end_date - now).days`, then
`Expired` if negative, `Expiring Soon` if below 30, `Active` otherwise. -/

def subscription_status (days_left : Int) : String :=
  if days_left < 0 then "Expired"
  else if days_left < 30 then "Expiring Soon"
  else "Active"

/-- C7: the derived status is `Expired` for `days_left < 0`, `Expiring Soon`
for `0 ≤ days_left < 30` and `Active` for `days_left ≥ 30`. -/
theorem C7_subscription_status_ranges (d : Int) :
    (d < 0 → subscription_status d = "Expired") ∧
    (0 ≤ d → d < 30 → subscription_status d = "Expiring Soon") ∧
    (30 ≤ d → subscription_status d = "Active") := by
  unfold subscription_status
  refine ⟨fun h => by rw [if_pos h], fun h1 h2 => ?_, fun h => ?_⟩
  · rw [if_neg (by omega), if_pos h2]
  · rw [if_neg (by omega), if_neg (by omega)]

/-- Witness for C7 at the claim's own inputs: -5, 10 and 40 days left. -/
theorem C7_subscription_status_ranges_witness :
    subscription_status (-5) = "Expired" ∧
    subscription_status 10 = "Expiring Soon" ∧
    subscription_status 40 = "Active" :=
  ⟨(C7_subscription_status_ranges (-5)).1 (by decide),
   (C7_subscription_status_ranges 10).2.1 (by decide) (by decide),
   (C7_subscription_status_ranges 40).2.2 (by decide)⟩

/-! ## Subscription extension (`AzureServices.update_subscription`,
medical_practice_app/lib/python_admin/admin_app.py 408-436)

`datetime` values are modelled at day granularity as day numbers
(`daysFromCivil`, days since 1970-01-01 of a Gregorian date, following the
standard civil-calendar conversion); `datetime.timedelta(days=n)` is `+ n`. -/

def daysFromCivil (y : Int) (m d : Nat) : Int :=
  let y2 : Int := if m ≤ 2 then y - 1 else y
  let era : Int := (if 0 ≤ y2 then y2 else y2 - 399) / 400
  let yoe : Int := y2 - era * 400
  let mp : Nat := if 2 < m then m - 3 else m + 9
  let doy : Int := ((153 * mp + 2) / 5 : Nat) + (d : Int) - 1
  let doe : Int := yoe * 365 + yoe / 4 - yoe / 100 + doy
  era * 146097 + doe - 719468

/-- The fields of a doctor document touched by `update_subscription`. -/
structure SubscriptionRecord where
  subscriptionEndDate : Option Int
  updatedAt : Int
  deriving DecidableEq, Repr

/-- `AzureServices.update_subscription`: the new end date is the current end
date plus `days`, or `now + days` when no end date is stored. -/
def update_subscription (now days : Int) (rec : SubscriptionRecord) :
    SubscriptionRecord :=
  let current_end : Int :=
    match rec.subscriptionEndDate with
    | some e => e
    | none => now
  { subscriptionEndDate := some (current_end + days), updatedAt := now }

/-- C5: extension is additive (new end = current end + days, or now + days
when unset), so from 2024-01-01 extending by 30 gives 2024-01-31, extending
by 30 then 10 gives 2024-02-10, and the two extensions commute. -/
theorem C5_update_subscription_additive
    (rec : SubscriptionRecord) (now now2 : Int)
    (h : rec.subscriptionEndDate = some (daysFromCivil 2024 1 1)) :
    (update_subscription now 30 rec).subscriptionEndDate =
      some (daysFromCivil 2024 1 31) ∧
    (update_subscription now2 10 (update_subscription now 30 rec)).subscriptionEndDate =
      some (daysFromCivil 2024 2 10) ∧
    (∀ (s : SubscriptionRecord) (n1 n2 d1 d2 : Int),
      (update_subscription n2 d2 (update_subscription n1 d1 s)).subscriptionEndDate =
      (update_subscription n2 d1 (update_subscription n1 d2 s)).subscriptionEndDate) ∧
    (∀ (s : SubscriptionRecord) (n d e : Int), s.subscriptionEndDate = some e →
      (update_subscription n d s).subscriptionEndDate = some (e + d)) := by
  have h31 : daysFromCivil 2024 1 1 + 30 = daysFromCivil 2024 1 31 := by decide
  have h40 : daysFromCivil 2024 1 1 + 30 + 10 = daysFromCivil 2024 2 10 := by decide
  refine ⟨?_, ?_, ?_, ?_⟩
  · simp [update_subscription, h, h31]
  · simp [update_subscription, h]
    omega
  · intro s n1 n2 d1 d2
    cases hs : s.subscriptionEndDate <;> simp [update_subscription, hs] <;> omega
  · intro s n d e he
    simp [update_subscription, he]

/-- Witness for C5: a record whose end date is 2024-01-01 as a day number. -/
theorem C5_update_subscription_additive_witness :
    (update_subscription 0 30 ⟨some (daysFromCivil 2024 1 1), 0⟩).subscriptionEndDate =
      some (daysFromCivil 2024 1 31) ∧
    (update_subscription 5 10
        (update_subscription 0 30 ⟨some (daysFromCivil 2024 1 1), 0⟩)).subscriptionEndDate =
      some (daysFromCivil 2024 2 10) :=
  ⟨(C5_update_subscription_additive ⟨some (daysFromCivil 2024 1 1), 0⟩ 0 5 rfl).1,
   (C5_update_subscription_additive ⟨some (daysFromCivil 2024 1 1), 0⟩ 0 5 rfl).2.1⟩

/-! ## Whitelisted field merge (`AzureServices.update_doctor_account`,
medical_practice_app/lib/python_admin/admin_app.py 236-258; the same merge
loop appears in `AzureServices.update_admin_account`, owner_app.py 230-272)

A Cosmos document is a Python dict, modelled as an ordered key-value list
with distinct keys kept implicit; `getField` is dict lookup.  The merge loop
is `for key, value in update_data.items(): if key in record: record[key] = value`,
followed by `record['updatedAt'] = now`. -/

def getField {α : Type} (record : List (String × α)) (k : String) : Option α :=
  (record.find? fun p => p.1 == k).map (·.2)

def hasField {α : Type} (record : List (String × α)) (k : String) : Bool :=
  record.any fun p => p.1 == k

/-- Dict assignment to a key already present: replace its value in place. -/
def setField {α : Type} (record : List (String × α)) (k : String) (v : α) :
    List (String × α) :=
  record.map fun p => if p.1 == k then (p.1, v) else p

/-- Dict assignment in general: replace if present, append otherwise. -/
def setOrAddField {α : Type} (record : List (String × α)) (k : String) (v : α) :
    List (String × α) :=
  if hasField record k then setField record k v else record ++ [(k, v)]

/-- The `for`-loop of `update_doctor_account`: only keys already present in
the record are assigned; unknown keys fall through. -/
def mergeFields {α : Type} (record update_data : List (String × α)) :
    List (String × α) :=
  update_data.foldl
    (fun acc kv => if hasField acc kv.1 then setField acc kv.1 kv.2 else acc)
    record

/-- `AzureServices.update_doctor_account` on the document read by `read_item`. -/
def update_doctor_account {α : Type} (doctor_record update_data : List (String × α))
    (now : α) : List (String × α) :=
  setOrAddField (mergeFields doctor_record update_data) "updatedAt" now


lemma getField_cons {α : Type} (p : String × α) (rest : List (String × α)) (k : String) :
    getField (p :: rest) k = if p.1 = k then some p.2 else getField rest k := by
  by_cases hp : p.1 = k
  · simp [getField, List.find?_cons, hp]
  · have hb : (p.1 == k) = false := beq_eq_false_iff_ne.mpr hp
    simp [getField, List.find?_cons, hb, hp]

lemma hasField_cons {α : Type} (p : String × α) (rest : List (String × α)) (k : String) :
    hasField (p :: rest) k = if p.1 = k then true else hasField rest k := by
  by_cases hp : p.1 = k
  · simp [hasField, hp]
  · have hb : (p.1 == k) = false := beq_eq_false_iff_ne.mpr hp
    simp [hasField, hb, hp]

lemma setField_cons {α : Type} (p : String × α) (rest : List (String × α)) (k : String)
    (v : α) :
    setField (p :: rest) k v = (if p.1 = k then (p.1, v) else p) :: setField rest k v := by
  by_cases hp : p.1 = k <;> simp [setField, hp]

lemma getField_setField_ne {α : Type} (record : List (String × α)) (k k2 : String)
    (v : α) (h : k ≠ k2) : getField (setField record k2 v) k = getField record k := by
  induction record with
  | nil => rfl
  | cons p rest ih =>
      by_cases hp : p.1 = k2
      · have hpk : ¬ p.1 = k := fun hh => h (hh.symm.trans hp)
        simp [setField_cons, getField_cons, hp, hpk, ih, Ne.symm h]
      · simp [setField_cons, getField_cons, hp, ih]

lemma getField_setField_self {α : Type} (record : List (String × α)) (k : String)
    (v : α) : getField (setField record k v) k = (getField record k).map fun _ => v := by
  induction record with
  | nil => rfl
  | cons p rest ih =>
      by_cases hp : p.1 = k
      · simp [setField_cons, getField_cons, hp]
      · simp [setField_cons, getField_cons, hp, ih]

lemma hasField_eq_isSome {α : Type} (record : List (String × α)) (k : String) :
    hasField record k = (getField record k).isSome := by
  induction record with
  | nil => rfl
  | cons p rest ih =>
      by_cases hp : p.1 = k <;> simp [hasField_cons, getField_cons, hp, ih]

lemma hasField_setField {α : Type} (record : List (String × α)) (k k2 : String)
    (v : α) : hasField (setField record k2 v) k = hasField record k := by
  induction record with
  | nil => rfl
  | cons p rest ih =>
      by_cases hp : p.1 = k2
      · by_cases hk : p.1 = k
        · have h1 : k2 = k := hp.symm.trans hk
          simp [setField_cons, hasField_cons, hp, hk, h1, ih]
        · have h1 : ¬ k2 = k := fun hh => hk (hp.trans hh)
          simp [setField_cons, hasField_cons, hp, hk, h1, ih]
      · by_cases hk : p.1 = k
        · have h1 : ¬ k = k2 := fun hh => hp (hk.trans hh)
          simp [setField_cons, hasField_cons, hp, hk, h1, ih]
        · simp [setField_cons, hasField_cons, hp, hk, ih]

lemma getField_append {α : Type} (l1 l2 : List (String × α)) (k : String) :
    getField (l1 ++ l2) k =
      match getField l1 k with
      | some v => some v
      | none => getField l2 k := by
  induction l1 with
  | nil => simp [getField]
  | cons p rest ih =>
      by_cases hp : p.1 = k <;> simp [getField_cons, hp, ih]

lemma mergeFields_cons {α : Type} (record : List (String × α)) (kv : String × α)
    (rest : List (String × α)) :
    mergeFields record (kv :: rest) =
      mergeFields (if hasField record kv.1 then setField record kv.1 kv.2 else record)
        rest := rfl

lemma getField_mergeFields_of_not_named {α : Type}
    (record update_data : List (String × α)) (k : String)
    (hk : ∀ kv ∈ update_data, kv.1 ≠ k) :
    getField (mergeFields record update_data) k = getField record k := by
  induction update_data generalizing record with
  | nil => rfl
  | cons kv rest ih =>
      have hk1 : kv.1 ≠ k := hk kv (by simp)
      have hkr : ∀ p ∈ rest, p.1 ≠ k := fun p hp => hk p (by simp [hp])
      rw [mergeFields_cons]
      by_cases hf : hasField record kv.1 = true
      · rw [if_pos hf, ih _ hkr, getField_setField_ne _ _ _ _ (Ne.symm hk1)]
      · rw [if_neg hf, ih _ hkr]

lemma getField_setField_none {α : Type} (record : List (String × α)) (k k2 : String)
    (v : α) (h : getField record k = none) :
    getField (setField record k2 v) k = none := by
  by_cases hk : k = k2
  · subst hk; rw [getField_setField_self, h]; rfl
  · rw [getField_setField_ne _ _ _ _ hk, h]

lemma getField_mergeFields_none {α : Type}
    (record update_data : List (String × α)) (k : String)
    (h : getField record k = none) :
    getField (mergeFields record update_data) k = none := by
  induction update_data generalizing record with
  | nil => exact h
  | cons kv rest ih =>
      rw [mergeFields_cons]
      by_cases hf : hasField record kv.1 = true
      · rw [if_pos hf]
        exact ih _ (getField_setField_none _ _ _ _ h)
      · rw [if_neg hf]
        exact ih _ h

lemma getField_setOrAddField_self {α : Type} (record : List (String × α))
    (k : String) (v : α) : getField (setOrAddField record k v) k = some v := by
  unfold setOrAddField
  by_cases hf : hasField record k = true
  · rw [if_pos hf]
    have hs : (getField record k).isSome := by rw [← hasField_eq_isSome]; exact hf
    obtain ⟨w, hw⟩ := Option.isSome_iff_exists.mp hs
    rw [getField_setField_self, hw]
    rfl
  · rw [if_neg hf, getField_append]
    have hn : getField record k = none := by
      rw [hasField_eq_isSome] at hf
      exact Option.not_isSome_iff_eq_none.mp (by simpa using hf)
    rw [hn]
    simp [getField_cons]

lemma getField_setOrAddField_ne {α : Type} (record : List (String × α))
    (k k2 : String) (v : α) (h : k ≠ k2) :
    getField (setOrAddField record k2 v) k = getField record k := by
  unfold setOrAddField
  by_cases hf : hasField record k2 = true
  · rw [if_pos hf, getField_setField_ne _ _ _ _ h]
  · rw [if_neg hf, getField_append]
    cases hg : getField record k with
    | none => simp [getField_cons, Ne.symm h, getField]
    | some w => rfl

/-- C6: `update_doctor_account` ignores update keys absent from the stored
record, leaves every stored field not named in the update map unchanged, and
always refreshes `updatedAt` (the only field changed beyond those supplied). -/
theorem C6_update_doctor_account_frame {α : Type}
    (doctor_record update_data : List (String × α)) (now : α) :
    (∀ k : String, getField doctor_record k = none → k ≠ "updatedAt" →
        getField (update_doctor_account doctor_record update_data now) k = none) ∧
    (∀ k : String, (∀ kv ∈ update_data, kv.1 ≠ k) → k ≠ "updatedAt" →
        getField (update_doctor_account doctor_record update_data now) k =
          getField doctor_record k) ∧
    getField (update_doctor_account doctor_record update_data now) "updatedAt" =
      some now := by
  refine ⟨?_, ?_, ?_⟩
  · intro k hnone hne
    unfold update_doctor_account
    rw [getField_setOrAddField_ne _ _ _ _ hne]
    exact getField_mergeFields_none _ _ _ hnone
  · intro k hnm hne
    unfold update_doctor_account
    rw [getField_setOrAddField_ne _ _ _ _ hne]
    exact getField_mergeFields_of_not_named _ _ _ hnm
  · exact getField_setOrAddField_self _ _ _

/-- Witness for C6 on a concrete record and update map: the unknown key
`bogus` stays absent, the unnamed stored key `id` keeps its value, and
`updatedAt` is refreshed. -/
theorem C6_update_doctor_account_frame_witness :
    getField (update_doctor_account
        [("id", 1), ("name", 2), ("updatedAt", 3)] [("name", 9), ("bogus", 7)] 5)
      "bogus" = none ∧
    getField (update_doctor_account
        [("id", 1), ("name", 2), ("updatedAt", 3)] [("name", 9), ("bogus", 7)] 5)
      "id" = getField [("id", 1), ("name", 2), ("updatedAt", 3)] "id" ∧
    getField (update_doctor_account
        [("id", 1), ("name", 2), ("updatedAt", 3)] [("name", 9), ("bogus", 7)] 5)
      "updatedAt" = some 5 :=
  ⟨(C6_update_doctor_account_frame
      [("id", 1), ("name", 2), ("updatedAt", 3)] [("name", 9), ("bogus", 7)] 5).1
      "bogus" (by decide) (by decide),
   (C6_update_doctor_account_frame
      [("id", 1), ("name", 2), ("updatedAt", 3)] [("name", 9), ("bogus", 7)] 5).2.1
      "id" (by decide) (by decide),
   (C6_update_doctor_account_frame
      [("id", 1), ("name", 2), ("updatedAt", 3)] [("name", 9), ("bogus", 7)] 5).2.2⟩

/-! ## Account container and `AzureServices.regenerate_access_code`
(medical_practice_app/lib/python_admin/admin_app.py 380-406)

The users container holds one document per account; the fields touched by
code regeneration are modelled explicitly.  A raised exception is an
`Except.error` result paired with the unchanged container (nothing is
written before the `raise`). -/

structure Account where
  id : String
  role : String
  accessCode : Option (List Char)
  updatedAt : Int

inductive RegenError
  | notFound
  | invalidKind

/-- `regenerate_access_code(account_id)`: read the account, raise
`ValueError` unless its role is pharmacy or laboratory, else store a fresh
code.  Returns the result together with the resulting container state. -/
def regenerate_access_code (r : Nat → Nat) (now : Int)
    (container : List Account) (account_id : String) :
    Except RegenError (List Char) × List Account :=
  match container.find? (fun a => a.id == account_id) with
  | none => (Except.error RegenError.notFound, container)
  | some acct =>
      if ¬(acct.role = "pharmacy" ∨ acct.role = "laboratory") then
        (Except.error RegenError.invalidKind, container)
      else
        let new_code := generate_access_code r 0 8
        let acct2 := { acct with accessCode := some new_code, updatedAt := now }
        (Except.ok new_code,
         container.map fun a => if a.id == account_id then acct2 else a)

/-- C4: on an account whose role is neither pharmacy nor laboratory,
`regenerate_access_code` fails with the InvalidKind error (`ValueError`) and
the container — in particular the account record — is left unmodified. -/
theorem C4_regenerate_invalid_kind_unmodified
    (r : Nat → Nat) (now : Int) (container : List Account)
    (account_id : String) (acct : Account)
    (hfind : container.find? (fun a => a.id == account_id) = some acct)
    (hrole1 : acct.role ≠ "pharmacy") (hrole2 : acct.role ≠ "laboratory") :
    regenerate_access_code r now container account_id =
      (Except.error RegenError.invalidKind, container) := by
  unfold regenerate_access_code
  rw [hfind]
  exact if_pos (fun hor => hor.elim hrole1 hrole2)

/-- Witness for C4: a one-account container holding an admin account. -/
theorem C4_regenerate_invalid_kind_unmodified_witness :
    regenerate_access_code (fun _ => 0) 9
        [{ id := "a1", role := "admin", accessCode := none, updatedAt := 0 }] "a1" =
      (Except.error RegenError.invalidKind,
        [{ id := "a1", role := "admin", accessCode := none, updatedAt := 0 }]) :=
  C4_regenerate_invalid_kind_unmodified (fun _ => 0) 9
    [{ id := "a1", role := "admin", accessCode := none, updatedAt := 0 }] "a1"
    { id := "a1", role := "admin", accessCode := none, updatedAt := 0 }
    rfl (by decide) (by decide)

/-! ## Access-code uniqueness (claim C2)

`liveAccessCodes` collects the access codes of all pharmacy/laboratory
accounts present in the container; the claimed invariant is that they are
pairwise distinct after every generation-and-assignment. -/

def liveAccessCodes (container : List Account) : List (List Char) :=
  container.filterMap fun a =>
    if a.role = "pharmacy" ∨ a.role = "laboratory" then a.accessCode else none

def accessCodesUnique (container : List Account) : Prop :=
  (liveAccessCodes container).Nodup

instance (container : List Account) : Decidable (accessCodesUnique container) := by
  unfold accessCodesUnique
  infer_instance

/-- Counterexample to C2: the Azure-variant `regenerate_access_code` assigns
the freshly generated code without any check against the live set.  Starting
from a container whose live codes are unique (`AAAAAAAA`, `BBBBBBBB`), a
random source that yields index 0 on every draw regenerates the laboratory
code to `AAAAAAAA`, which collides with the live pharmacy code — uniqueness
at generation time is violated. -/
theorem C2_regenerate_access_code_collision_cex :
    accessCodesUnique
      [{ id := "p1", role := "pharmacy",
         accessCode := some ['A','A','A','A','A','A','A','A'], updatedAt := 0 },
       { id := "l1", role := "laboratory",
         accessCode := some ['B','B','B','B','B','B','B','B'], updatedAt := 0 }] ∧
    (regenerate_access_code (fun _ => 0) 1
      [{ id := "p1", role := "pharmacy",
         accessCode := some ['A','A','A','A','A','A','A','A'], updatedAt := 0 },
       { id := "l1", role := "laboratory",
         accessCode := some ['B','B','B','B','B','B','B','B'], updatedAt := 0 }]
      "l1").1 = Except.ok ['A','A','A','A','A','A','A','A'] ∧
    ¬ accessCodesUnique
      (regenerate_access_code (fun _ => 0) 1
        [{ id := "p1", role := "pharmacy",
           accessCode := some ['A','A','A','A','A','A','A','A'], updatedAt := 0 },
         { id := "l1", role := "laboratory",
           accessCode := some ['B','B','B','B','B','B','B','B'], updatedAt := 0 }]
        "l1").2 :=
  ⟨by decide, rfl, by decide⟩

/-! ## Local SQLite variant `AdminApplication.generate_access_code`
(python_admin/admin_app.py 1547-1569)

Generate 8 characters, then query the live pharmacy and laboratory tables
and recurse on a collision; an `sqlite3.Error` during the lookups is
swallowed (`except: pass`) and the unchecked code is returned.  The
unbounded Python recursion is modelled with explicit `fuel` (the Python
call either terminates after finitely many retries or overflows the stack);
attempt number `k` consumes stream positions `base + 8k, …, base + 8k + 7`. -/

def generate_access_code_sql (r : Nat → Nat)
    (pharmacyCodes labCodes : List (List Char)) (dbOk : Bool) :
    Nat → Nat → Option (List Char)
  | 0, _ => none
  | fuel + 1, base =>
      let code := generate_access_code r base 8
      if dbOk then
        if code ∈ pharmacyCodes then
          generate_access_code_sql r pharmacyCodes labCodes dbOk fuel (base + 8)
        else if code ∈ labCodes then
          generate_access_code_sql r pharmacyCodes labCodes dbOk fuel (base + 8)
        else some code
      else some code

/-- C2 (amended): only the local SQLite generator checks the live set — when
its duplicate lookups succeed (`dbOk = true`), any code it returns collides
with no live pharmacy or laboratory code.  (The Azure-variant assignments do
no such check; see the counterexample.) -/
theorem C2_generate_access_code_sql_unique (r : Nat → Nat)
    (ph lab : List (List Char)) :
    ∀ (fuel base : Nat) (code : List Char),
      generate_access_code_sql r ph lab true fuel base = some code →
      code ∉ ph ∧ code ∉ lab := by
  intro fuel
  induction fuel with
  | zero =>
      intro base code h
      exact absurd h (by simp [generate_access_code_sql])
  | succ fuel ih =>
      intro base code h
      rw [generate_access_code_sql] at h
      simp only [if_true] at h
      by_cases h1 : generate_access_code r base 8 ∈ ph
      · rw [if_pos h1] at h
        exact ih _ _ h
      · rw [if_neg h1] at h
        by_cases h2 : generate_access_code r base 8 ∈ lab
        · rw [if_pos h2] at h
          exact ih _ _ h
        · rw [if_neg h2] at h
          cases Option.some.inj h
          exact ⟨h1, h2⟩

/-- Witness for the amended C2: with the stream `r i = i`, the first attempt
yields `ABCDEFGH`, which collides with the only live pharmacy code, so the
second attempt (positions 8-15) returns `IJKLMNOP`, not in either live set. -/
theorem C2_generate_access_code_sql_unique_witness :
    generate_access_code_sql (fun i => i)
        [['A','B','C','D','E','F','G','H']] [] true 2 0 =
      some ['I','J','K','L','M','N','O','P'] ∧
    ['I','J','K','L','M','N','O','P'] ∉ [['A','B','C','D','E','F','G','H']] ∧
    ['I','J','K','L','M','N','O','P'] ∉ ([] : List (List Char)) :=
  ⟨by decide,
   C2_generate_access_code_sql_unique (fun i => i)
     [['A','B','C','D','E','F','G','H']] [] 2 0
     ['I','J','K','L','M','N','O','P'] (by decide)⟩

/-! ## `AzureServices.add_lab_account_to_doctor`
(medical_practice_app/lib/python_admin/admin_app.py 328-378)

The doctor document fields touched by the operation are modelled explicitly;
the laboratory documents created in the users container are kept in `labs`.
The first call returns `{doctor, lab_id, lab_code}`; the guarded early
return hands back the (unchanged) doctor record, whose `labAccountId` is how
a caller reads the linked lab id in that case. -/

structure AzDoctorRecord where
  id : String
  displayName : String
  hasLabAccount : Bool
  labAccountId : Option String
  labAccountActive : Bool
  updatedAt : Int

structure LabRecord where
  id : String
  doctorId : String
  name : String
  email : String
  role : String
  accessCode : List Char
  isActive : Bool
  createdAt : Int
  updatedAt : Int

inductive AddLabResult
  | created (doctor : AzDoctorRecord) (labId : String) (labCode : List Char)
  | alreadyHas (doctor : AzDoctorRecord)

/-- The lab id carried by the result: the fresh id on creation, the
doctor record's `labAccountId` on the early return. -/
def AddLabResult.labId : AddLabResult → Option String
  | .created _ l _ => some l
  | .alreadyHas d => d.labAccountId

/-- The (possibly updated) doctor record carried by the result. -/
def AddLabResult.doctor : AddLabResult → AzDoctorRecord
  | .created d _ _ => d
  | .alreadyHas d => d

/-- `add_lab_account_to_doctor(doctor_id)`: early return if the doctor is
already flagged with a lab account and has a lab id; otherwise create the
lab document (id from `uuid.uuid4()`, passed as `lab_uuid`) and link it. -/
def add_lab_account_to_doctor (lab_uuid : String) (r : Nat → Nat) (now : Int)
    (doctor_record : AzDoctorRecord) (labs : List LabRecord) :
    AddLabResult × List LabRecord :=
  if doctor_record.hasLabAccount ∧ doctor_record.labAccountId.isSome then
    (AddLabResult.alreadyHas doctor_record, labs)
  else
    let lab_id := lab_uuid
    let lab_code := generate_access_code r 0 8
    let lab_record : LabRecord :=
      { id := lab_id, doctorId := doctor_record.id,
        name := doctor_record.displayName ++ "\x27s Laboratory",
        email := "lab-" ++ doctor_record.id.take 8 ++ "@example.com",
        role := "laboratory", accessCode := lab_code, isActive := true,
        createdAt := now, updatedAt := now }
    let doctor2 : AzDoctorRecord :=
      { doctor_record with
          hasLabAccount := true
          labAccountId := some lab_id
          labAccountActive := true
          updatedAt := now }
    (AddLabResult.created doctor2 lab_id lab_code, labs ++ [lab_record])

/-- C3: for a doctor with `hasLabAccount = false`, the first
`add_lab_account_to_doctor` call creates exactly one lab document and links
its id; a second call (with fresh uuid/randomness/time) takes the idempotent
guard, creates no further lab document, and yields the same lab id. -/
theorem C3_add_lab_account_idempotent
    (uuid1 uuid2 : String) (r1 r2 : Nat → Nat) (now1 now2 : Int)
    (doc : AzDoctorRecord) (labs : List LabRecord)
    (hno : doc.hasLabAccount = false) :
    (add_lab_account_to_doctor uuid1 r1 now1 doc labs).1.labId = some uuid1 ∧
    (add_lab_account_to_doctor uuid1 r1 now1 doc labs).2.length = labs.length + 1 ∧
    (add_lab_account_to_doctor uuid2 r2 now2
        (add_lab_account_to_doctor uuid1 r1 now1 doc labs).1.doctor
        (add_lab_account_to_doctor uuid1 r1 now1 doc labs).2).2 =
      (add_lab_account_to_doctor uuid1 r1 now1 doc labs).2 ∧
    (add_lab_account_to_doctor uuid2 r2 now2
        (add_lab_account_to_doctor uuid1 r1 now1 doc labs).1.doctor
        (add_lab_account_to_doctor uuid1 r1 now1 doc labs).2).1.labId =
      some uuid1 := by
  have hguard : ¬(doc.hasLabAccount ∧ doc.labAccountId.isSome) := by
    rw [hno]; simp
  refine ⟨?_, ?_, ?_, ?_⟩ <;>
    simp [add_lab_account_to_doctor, hguard, AddLabResult.labId, AddLabResult.doctor]

/-- Witness for C3: a freshly created doctor without a lab account. -/
theorem C3_add_lab_account_idempotent_witness :
    (add_lab_account_to_doctor "u1" (fun _ => 0) 1
        { id := "d1", displayName := "Doc", hasLabAccount := false,
          labAccountId := none, labAccountActive := false, updatedAt := 0 }
        []).1.labId = some "u1" ∧
    (add_lab_account_to_doctor "u2" (fun _ => 1) 2
        (add_lab_account_to_doctor "u1" (fun _ => 0) 1
          { id := "d1", displayName := "Doc", hasLabAccount := false,
            labAccountId := none, labAccountActive := false, updatedAt := 0 }
          []).1.doctor
        (add_lab_account_to_doctor "u1" (fun _ => 0) 1
          { id := "d1", displayName := "Doc", hasLabAccount := false,
            labAccountId := none, labAccountActive := false, updatedAt := 0 }
          []).2).1.labId = some "u1" :=
  ⟨(C3_add_lab_account_idempotent "u1" "u2" (fun _ => 0) (fun _ => 1) 1 2
      { id := "d1", displayName := "Doc", hasLabAccount := false,
        labAccountId := none, labAccountActive := false, updatedAt := 0 }
      [] rfl).1,
   (C3_add_lab_account_idempotent "u1" "u2" (fun _ => 0) (fun _ => 1) 1 2
      { id := "d1", displayName := "Doc", hasLabAccount := false,
        labAccountId := none, labAccountActive := false, updatedAt := 0 }
      [] rfl).2.2.2⟩

/-! ## Local SQLite variant doctor password storage
(python_admin/admin_app.py 463-481 `add_doctor` and 617-647 `edit_doctor`)

Both paths store `hashlib.sha256(password.encode()).hexdigest()` — an
unsalted digest of the plaintext alone.  SHA-256 is the external parameter
`sha256hex`.  Contrast with `hash_password` above, whose output also depends
on the random salt. -/

structure SqlDoctorRow where
  username : String
  password : String
  name : String
  specialty : String
  email : String
  phone : String
  created_at : String

/-- The row inserted by `add_doctor`: the stored password is
`sha256hex password`, no salt and no random input. -/
def add_doctor_row (sha256hex : String → String)
    (username password name specialty email phone created_at : String) :
    SqlDoctorRow :=
  { username := username, password := sha256hex password, name := name,
    specialty := specialty, email := email, phone := phone,
    created_at := created_at }

/-- The password value written by the `edit_doctor` UPDATE when a new
password is supplied. -/
def edit_doctor_password (sha256hex : String → String) (password : String) :
    String :=
  sha256hex password

/-- C10: local doctor-password hashing is deterministic — the stored hash is
a function of the plaintext alone, so creating two doctor accounts with the
same password (any usernames, profiles, timestamps) and editing a doctor to
that password all store the identical hash value. -/
theorem C10_local_doctor_hash_deterministic
    (sha256hex : String → String) (password : String)
    (u1 u2 n1 n2 s1 s2 e1 e2 p1 p2 c1 c2 : String) :
    (add_doctor_row sha256hex u1 password n1 s1 e1 p1 c1).password =
      (add_doctor_row sha256hex u2 password n2 s2 e2 p2 c2).password ∧
    (add_doctor_row sha256hex u1 password n1 s1 e1 p1 c1).password =
      edit_doctor_password sha256hex password ∧
    (add_doctor_row sha256hex u1 password n1 s1 e1 p1 c1).password =
      sha256hex password :=
  ⟨rfl, rfl, rfl⟩
